import Mathlib

set_option maxRecDepth 8000

/-!
Shallow embedding of the circuit-simulation core of the relay simulator
(functions simulate and walk_wires in src/main.rs, lines 1695-1897, plus the
data types they read). Rust usize grid coordinates become Nat; Bevy ECS
queries become lists held in a SimState record; in-place mutation becomes
explicit state passing; a Rust panic (an out-of-range index or a failed
unwrap) is modelled as Option.none.
-/

/-- Rust struct GridPosition { x: usize, y: usize } (main.rs:43). -/
structure GridPosition where
  x : Nat
  y : Nat
deriving DecidableEq, Repr

/-- Rust enum Visited { Positive, Negative, Unvisited } (main.rs:1696). -/
inductive Visited where
  | Positive
  | Negative
  | Unvisited
deriving DecidableEq, Repr

/-- Rust struct Wire { first, second } (main.rs:135). -/
structure Wire where
  first : GridPosition
  second : GridPosition
deriving DecidableEq, Repr

/-- Rust enum SwitchType (main.rs:128). -/
inductive SwitchType where
  | NormallyOpen
  | NormallyClosed
deriving DecidableEq, Repr

/-- Rust struct ButtonSwitch (main.rs:111). -/
structure ButtonSwitch where
  id : Nat
  typ : SwitchType
  top : GridPosition
  bottom : GridPosition
deriving DecidableEq, Repr

/-- Rust struct RelaySwitch (main.rs:68). -/
structure RelaySwitch where
  id : Nat
  typ : SwitchType
  top : GridPosition
  bottom : GridPosition
deriving DecidableEq, Repr

/-- Rust struct RelayCoil (main.rs:59). -/
structure RelayCoil where
  id : Nat
  top : GridPosition
  bottom : GridPosition
  activated : Bool
deriving DecidableEq, Repr

/-- Rust struct UIButton (main.rs:98). -/
structure UIButton where
  id : Nat
  has_been_pressed : Bool
deriving DecidableEq, Repr

/-- Rust struct Light (main.rs:142). -/
structure Light where
  id : Nat
  top : GridPosition
  bottom : GridPosition
deriving DecidableEq, Repr

/-- Rust struct UILight (main.rs:149). -/
structure UILight where
  id : Nat
  is_lit : Bool
deriving DecidableEq, Repr

/-- Rust enum PowerType (main.rs:161). -/
inductive PowerType where
  | Positive
  | Negative
deriving DecidableEq, Repr

/-- Rust struct Power(PowerType) (main.rs:158) is a newtype around the enum;
modelled as the underlying enum. -/
abbrev Power := PowerType

/-- The data read and written by one call of the Rust system simulate: the
ECS queries, flattened into lists in query-iteration order. -/
structure SimState where
  wires : List Wire
  ui_buttons : List UIButton
  button_switches : List ButtonSwitch
  relay_coils : List RelayCoil
  relay_switches : List RelaySwitch
  ui_lights : List UILight
  lights : List Light
  power_sources : List (GridPosition × Power)
deriving DecidableEq, Repr

/-- Default node handed to List.getD; a well-formed caller never reaches it
(indices produced by posIdx? and buildTopology are in range). -/
def dfltNode : GridPosition × Visited := (⟨0, 0⟩, Visited.Unvisited)

/-- Rust wire_positions.iter().position(|p| p.0 == pos): index of the first
node whose position equals pos (used at main.rs:1764, 1809, 1812, 1834,
1837, 1865). -/
def posIdx? : List (GridPosition × Visited) → GridPosition → Option Nat
  | [], _ => none
  | p :: rest, pos =>
    if p.1 = pos then some 0
    else (posIdx? rest pos).map (· + 1)

/-- One endpoint insertion of the topology-builder loop (main.rs:1760-1770):
reuse the index of an existing node with this position, else append a fresh
Unvisited node. Returns the grown node list and the endpoint's node index. -/
def insertPos (acc : List (GridPosition × Visited)) (pos : GridPosition) :
    List (GridPosition × Visited) × Nat :=
  match posIdx? acc pos with
  | some idx => (acc, idx)
  | none => (acc ++ [(pos, Visited.Unvisited)], acc.length)

/-- The topology-builder loop over the conductive elements
(main.rs:1752-1772): for each wire insert first then second endpoint and
record the index pair. -/
def buildTopologyAux :
    List Wire → List (GridPosition × Visited) → List (Nat × Nat) →
      List (GridPosition × Visited) × List (Nat × Nat)
  | [], acc, conns => (acc, conns)
  | w :: rest, acc, conns =>
    let r1 := insertPos acc w.first
    let r2 := insertPos r1.1 w.second
    buildTopologyAux rest r2.1 (conns ++ [(r1.2, r2.2)])

/-- Nodes (wire_positions) and edges (wire_connections) built from the
ordered conductive-element list (main.rs:1714-1772). -/
def buildTopology (ws : List Wire) :
    List (GridPosition × Visited) × List (Nat × Nat) :=
  buildTopologyAux ws [] []

/-- Result of one walk_wires call: Ok with the updated node list, the
short-circuit Err, or the model-only fuel-exhaustion marker (the source
loop can only diverge when called with the Unvisited mark, which the
program never does; see walkWiresAux_ne_outOfFuel). -/
inductive WalkResult where
  | ok (positions : List (GridPosition × Visited))
  | shortCircuit
  | outOfFuel
deriving DecidableEq, Repr

/-- Rust main.rs:1880-1894: neighbor positions of the node at index through
the edge list, keeping only neighbors whose current mark differs from the
walk's mark. -/
def nextConnections (mark : Visited) (positions : List (GridPosition × Visited))
    (conns : List (Nat × Nat)) (index : Nat) : List GridPosition :=
  ((conns.filterMap fun c =>
        if c.1 = index then some c.2
        else if c.2 = index then some c.1
        else none).filter
      fun idx => decide ((positions.getD idx dfltNode).2 ≠ mark)).map
    fun idx => (positions.getD idx dfltNode).1

/-- Number of nodes still carrying the Unvisited mark. -/
def countUnvisited (positions : List (GridPosition × Visited)) : Nat :=
  positions.countP fun p => decide (p.2 = Visited.Unvisited)

/-- The while-let loop of walk_wires (main.rs:1864-1895). The to_visit Vec
is popped from its end, so it is modelled head-first: the Lean list head is
the Rust Vec's last element, and extend prepends the reversed neighbor
list. Fuel bounds the iteration count; walkWires supplies enough fuel for
every reachable call (walkWiresAux_ne_outOfFuel). -/
def walkWiresAux (mark : Visited) (conns : List (Nat × Nat)) :
    Nat → List (GridPosition × Visited) → List GridPosition → WalkResult
  | _, positions, [] => .ok positions
  | 0, _, _ :: _ => .outOfFuel
  | fuel + 1, positions, pos :: rest =>
    match posIdx? positions pos with
    | none => walkWiresAux mark conns fuel positions rest
    | some index =>
      let entry := positions.getD index dfltNode
      if entry.2 = Visited.Unvisited then
        let positions1 := positions.set index (entry.1, mark)
        walkWiresAux mark conns fuel positions1
          ((nextConnections mark positions1 conns index).reverse ++ rest)
      else if entry.2 ≠ mark then .shortCircuit
      else walkWiresAux mark conns fuel positions rest

/-- Rust fn walk_wires (main.rs:1856-1897), with fuel that the termination
argument shows sufficient whenever mark is not Unvisited. -/
def walkWires (source : GridPosition) (mark : Visited)
    (positions : List (GridPosition × Visited)) (conns : List (Nat × Nat)) :
    WalkResult :=
  walkWiresAux mark conns (countUnvisited positions * conns.length + 1)
    positions [source]

/-- Button prepass (main.rs:1720-1726): collect the ids of pressed buttons
in iteration order. -/
def activeButtonIds (buttons : List UIButton) : List Nat :=
  buttons.foldl (fun acc b => if b.has_been_pressed then acc ++ [b.id] else acc) []

/-- Button prepass reset (main.rs:1725): has_been_pressed cleared on every
button. -/
def resetButtons (buttons : List UIButton) : List UIButton :=
  buttons.map fun b => { b with has_been_pressed := false }

/-- The filter closure on button switches (main.rs:1730-1733). -/
def buttonConducts (active : List Nat) (b : ButtonSwitch) : Bool :=
  match b.typ with
  | .NormallyOpen => decide (b.id ∈ active)
  | .NormallyClosed => decide (b.id ∉ active)

/-- Effective wires contributed by button switches (main.rs:1728-1734). -/
def buttonWires (active : List Nat) (switches : List ButtonSwitch) : List Wire :=
  (switches.filter (buttonConducts active)).map fun b => ⟨b.top, b.bottom⟩

/-- Relay prepass (main.rs:1736-1742): collect ids of coils whose activated
flag is set. -/
def activeRelayIds (coils : List RelayCoil) : List Nat :=
  coils.foldl (fun acc c => if c.activated then acc ++ [c.id] else acc) []

/-- Relay prepass reset (main.rs:1741): every coil's activated flag is
cleared at latch capture, before the walks run. -/
def resetCoils (coils : List RelayCoil) : List RelayCoil :=
  coils.map fun c => { c with activated := false }

/-- The filter closure on relay switches (main.rs:1746-1749). -/
def relayConducts (active : List Nat) (r : RelaySwitch) : Bool :=
  match r.typ with
  | .NormallyOpen => decide (r.id ∈ active)
  | .NormallyClosed => decide (r.id ∉ active)

/-- Effective wires contributed by relay switches (main.rs:1744-1750). -/
def relayWires (active : List Nat) (switches : List RelaySwitch) : List Wire :=
  (switches.filter (relayConducts active)).map fun r => ⟨r.top, r.bottom⟩

/-- The ordered conductive-element sequence of a tick: plain wires, then
effective button edges, then effective relay edges (main.rs:1752-1756). -/
def effectiveWires (s : SimState) : List Wire :=
  s.wires ++ buttonWires (activeButtonIds s.ui_buttons) s.button_switches
    ++ relayWires (activeRelayIds s.relay_coils) s.relay_switches

/-- The tick's freshly built topology (main.rs:1752-1772). -/
def tickTopology (s : SimState) :
    List (GridPosition × Visited) × List (Nat × Nat) :=
  buildTopology (effectiveWires s)

/-- Power-source selection (main.rs:1774-1782): take two sources, index the
first two (a panic, hence none, when fewer exist), and pick the positive
terminal by checking only the first source's polarity. -/
def selectTerminals (sources : List (GridPosition × Power)) :
    Option (GridPosition × GridPosition) :=
  match sources.take 2 with
  | s1 :: s2 :: _ =>
    some (if s1.2 = PowerType.Positive then (s1.1, s2.1) else (s2.1, s1.1))
  | _ => none

/-- Both walks of a tick (main.rs:1784-1798): the positive walk first, its
unwrap modelled as none on any non-Ok result, then the negative walk, whose
result is surfaced. -/
def negWalkResult (s : SimState) : Option WalkResult :=
  match selectTerminals s.power_sources with
  | none => none
  | some t =>
    match walkWires t.1 Visited.Positive (tickTopology s).1 (tickTopology s).2 with
    | .ok ps1 => some (walkWires t.2 Visited.Negative ps1 (tickTopology s).2)
    | _ => none

/-- The node list after both walks, when the tick reaches resolution. -/
def tickMarkedNodes (s : SimState) : Option (List (GridPosition × Visited)) :=
  match negWalkResult s with
  | some (.ok ps) => some ps
  | _ => none

/-- The consumer activation condition (main.rs:1816-1820 and 1842-1846):
both terminals resolve to nodes and the two nodes carry opposite marks. A
missing terminal or a non-opposite pair yields false. -/
def litCond (positions : List (GridPosition × Visited))
    (top bottom : GridPosition) : Bool :=
  match posIdx? positions top, posIdx? positions bottom with
  | some ti, some bi =>
    decide (((positions.getD ti dfltNode).2 = Visited.Positive ∧
        (positions.getD bi dfltNode).2 = Visited.Negative) ∨
      ((positions.getD ti dfltNode).2 = Visited.Negative ∧
        (positions.getD bi dfltNode).2 = Visited.Positive))
  | _, _ => false

/-- Rust main.rs:1821-1825: find the first ui light with the given id and
set its is_lit; none models the panic of the unwrap when no ui light
matches. -/
def setLitFirst : List UILight → Nat → Option (List UILight)
  | [], _ => none
  | u :: rest, i =>
    if u.id = i then some ({ u with is_lit := true } :: rest)
    else (setLitFirst rest i).map (u :: ·)

/-- Lamp reset (main.rs:1804-1806): every ui light is first forced unlit. -/
def resetLights (uls : List UILight) : List UILight :=
  uls.map fun u => { u with is_lit := false }

/-- The lamp-resolution loop (main.rs:1808-1831): for each light, skip it
when a terminal has no node, light it when the terminal nodes carry
opposite marks. -/
def resolveLights (positions : List (GridPosition × Visited)) :
    List Light → List UILight → Option (List UILight)
  | [], uls => some uls
  | l :: rest, uls =>
    if litCond positions l.top l.bottom then
      match setLitFirst uls l.id with
      | none => none
      | some uls1 => resolveLights positions rest uls1
    else resolveLights positions rest uls

/-- The relay-coil resolution loop (main.rs:1833-1853): a coil whose
terminal nodes carry opposite marks has activated set; every other coil is
left as the prepass left it. -/
def resolveCoils (positions : List (GridPosition × Visited))
    (coils : List RelayCoil) : List RelayCoil :=
  coils.map fun c =>
    if litCond positions c.top c.bottom then { c with activated := true } else c

/-- Rust fn simulate (main.rs:1702-1854), one tick. none models a panic
(missing power source, or a light whose id has no ui light). On a
short-circuit the tick returns early with buttons and coils already reset
by the prepasses and lights untouched. -/
def simulate (s : SimState) : Option SimState :=
  match negWalkResult s with
  | none => none
  | some .outOfFuel => none
  | some .shortCircuit =>
    some { s with ui_buttons := resetButtons s.ui_buttons,
                  relay_coils := resetCoils s.relay_coils }
  | some (.ok positions2) =>
    match resolveLights positions2 s.lights (resetLights s.ui_lights) with
    | none => none
    | some uls =>
      some { s with ui_buttons := resetButtons s.ui_buttons,
                    ui_lights := uls,
                    relay_coils := resolveCoils positions2 (resetCoils s.relay_coils) }

/-- The endpoint stream of the conductive-element list, in processing
order: first then second endpoint of each wire. -/
def wireEndpoints : List Wire → List GridPosition
  | [] => []
  | w :: rest => w.first :: w.second :: wireEndpoints rest

/-- Modelled from the spec wording for the node list: first-seen-wins
deduplication by exact position equality, in encounter order. Used to state
that the builder's node list refines this description. -/
def firstSeen (ps : List GridPosition) : List GridPosition :=
  ps.foldl (fun seen p => if p ∈ seen then seen else seen ++ [p]) []

/-- An edge pair correctly references the node list: both indices are in
range and the indexed nodes hold the wire's two endpoint positions. -/
def goodEdge (nodes : List (GridPosition × Visited)) (w : Wire) (e : Nat × Nat) : Prop :=
  e.1 < nodes.length ∧ e.2 < nodes.length ∧
    (nodes.getD e.1 dfltNode).1 = w.first ∧ (nodes.getD e.2 dfltNode).1 = w.second

/-- A state whose tick short-circuits: the two terminals are joined by one
wire, a previously energised coil sits off-grid, one lamp is lit. -/
def exShort : SimState :=
  { wires := [⟨⟨0, 0⟩, ⟨0, 1⟩⟩],
    ui_buttons := [],
    button_switches := [],
    relay_coils := [⟨0, ⟨5, 5⟩, ⟨5, 6⟩, true⟩],
    relay_switches := [],
    ui_lights := [⟨0, true⟩],
    lights := [],
    power_sources := [(⟨0, 0⟩, PowerType.Positive), (⟨0, 1⟩, PowerType.Negative)] }

/-- A state whose tick succeeds with an empty topology: a previously
energised coil has no terminal nodes at all. -/
def exNoWires : SimState :=
  { wires := [],
    ui_buttons := [],
    button_switches := [],
    relay_coils := [⟨0, ⟨9, 9⟩, ⟨9, 8⟩, true⟩],
    relay_switches := [],
    ui_lights := [],
    lights := [],
    power_sources := [(⟨0, 0⟩, PowerType.Positive), (⟨5, 5⟩, PowerType.Negative)] }

/-- The basic lighting circuit: a lamp bridging two wire stubs that reach
the two terminals. -/
def exBasic : SimState :=
  { wires := [⟨⟨0, 0⟩, ⟨0, 1⟩⟩, ⟨⟨0, 3⟩, ⟨0, 2⟩⟩],
    ui_buttons := [],
    button_switches := [],
    relay_coils := [],
    relay_switches := [],
    ui_lights := [⟨7, false⟩],
    lights := [⟨7, ⟨0, 1⟩, ⟨0, 2⟩⟩],
    power_sources := [(⟨0, 0⟩, PowerType.Positive), (⟨0, 3⟩, PowerType.Negative)] }

/-- The node list exBasic's tick produces after both walks. -/
def exBasicNodes : List (GridPosition × Visited) :=
  [(⟨0, 0⟩, Visited.Positive), (⟨0, 1⟩, Visited.Positive),
   (⟨0, 3⟩, Visited.Negative), (⟨0, 2⟩, Visited.Negative)]

/-- The state exBasic's tick produces: the lamp is lit. -/
def exBasicAfter : SimState :=
  { exBasic with ui_lights := [⟨7, true⟩] }

/-- A relay circuit: the coil bridges a Positive and a Negative island, a
Normally-Open relay switch with the coil's id sits elsewhere. -/
def exRelay : SimState :=
  { wires := [⟨⟨0, 0⟩, ⟨0, 1⟩⟩, ⟨⟨5, 5⟩, ⟨5, 6⟩⟩],
    ui_buttons := [],
    button_switches := [],
    relay_coils := [⟨0, ⟨0, 1⟩, ⟨5, 6⟩, false⟩],
    relay_switches := [⟨0, SwitchType.NormallyOpen, ⟨3, 3⟩, ⟨3, 4⟩⟩],
    ui_lights := [],
    lights := [],
    power_sources := [(⟨0, 0⟩, PowerType.Positive), (⟨5, 5⟩, PowerType.Negative)] }

/-- The state exRelay's tick produces: the coil is energised. -/
def exRelayAfter : SimState :=
  { exRelay with relay_coils := [⟨0, ⟨0, 1⟩, ⟨5, 6⟩, true⟩] }

/-- The state exNoWires's tick produces: the unreachable coil has been
reset to false. -/
def exNoWiresAfter : SimState :=
  { exNoWires with relay_coils := [⟨0, ⟨9, 9⟩, ⟨9, 8⟩, false⟩] }

/-- A state with a single power source: indexing the second panics. -/
def exOneSource : SimState :=
  { wires := [],
    ui_buttons := [],
    button_switches := [],
    relay_coils := [],
    relay_switches := [],
    ui_lights := [],
    lights := [],
    power_sources := [(⟨0, 0⟩, PowerType.Positive)] }

/-- A state with a pressed button driving a Normally-Open button switch. -/
def exButton : SimState :=
  { wires := [],
    ui_buttons := [⟨1, true⟩],
    button_switches := [⟨1, SwitchType.NormallyOpen, ⟨2, 2⟩, ⟨2, 3⟩⟩],
    relay_coils := [],
    relay_switches := [],
    ui_lights := [],
    lights := [],
    power_sources := [(⟨0, 0⟩, PowerType.Positive), (⟨5, 5⟩, PowerType.Negative)] }

/-! ### Lemmas about posIdx? -/

theorem posIdx?_eq_none {l : List (GridPosition × Visited)} {pos : GridPosition} :
    posIdx? l pos = none ↔ ∀ p ∈ l, p.1 ≠ pos := by
  induction l with
  | nil => simp [posIdx?]
  | cons p rest ih =>
    simp only [posIdx?]
    by_cases h : p.1 = pos
    · simp [h]
    · simp [h, Option.map_eq_none', ih]

theorem posIdx?_lt {l : List (GridPosition × Visited)} {pos : GridPosition}
    {i : Nat} (h : posIdx? l pos = some i) : i < l.length := by
  induction l generalizing i with
  | nil => simp [posIdx?] at h
  | cons p rest ih =>
    simp only [posIdx?] at h
    by_cases hp : p.1 = pos
    · simp [hp] at h
      simp only [List.length_cons]
      omega
    · simp [hp, Option.map_eq_some'] at h
      obtain ⟨j, hj, rfl⟩ := h
      have := ih hj
      simp only [List.length_cons]
      omega

theorem posIdx?_getD {l : List (GridPosition × Visited)} {pos : GridPosition}
    {i : Nat} (h : posIdx? l pos = some i) : (l.getD i dfltNode).1 = pos := by
  induction l generalizing i with
  | nil => simp [posIdx?] at h
  | cons p rest ih =>
    simp only [posIdx?] at h
    by_cases hp : p.1 = pos
    · simp [hp] at h
      subst h
      simpa using hp
    · simp [hp, Option.map_eq_some'] at h
      obtain ⟨j, hj, rfl⟩ := h
      simpa using ih hj

theorem posIdx?_isSome_iff {l : List (GridPosition × Visited)} {pos : GridPosition} :
    (∃ i, posIdx? l pos = some i) ↔ pos ∈ l.map Prod.fst := by
  constructor
  · intro ⟨i, hi⟩
    by_contra hmem
    have : posIdx? l pos = none := by
      rw [posIdx?_eq_none]
      intro p hp hpe
      exact hmem (List.mem_map.mpr ⟨p, hp, hpe⟩)
    simp [this] at hi
  · intro hmem
    cases hi : posIdx? l pos with
    | some i => exact ⟨i, rfl⟩
    | none =>
      rw [posIdx?_eq_none] at hi
      obtain ⟨p, hp, hpe⟩ := List.mem_map.mp hmem
      exact absurd hpe (hi p hp)

/-! ### Termination measure of the walk -/

theorem countUnvisited_pos {positions : List (GridPosition × Visited)} {i : Nat}
    (hi : i < positions.length) (hu : (positions.getD i dfltNode).2 = Visited.Unvisited) :
    0 < countUnvisited positions := by
  rw [List.getD_eq_getElem _ _ hi] at hu
  unfold countUnvisited
  rw [List.countP_pos_iff]
  exact ⟨positions[i], List.getElem_mem _, by simp [hu]⟩

theorem countUnvisited_set {positions : List (GridPosition × Visited)} {i : Nat}
    (hi : i < positions.length) (hu : (positions.getD i dfltNode).2 = Visited.Unvisited)
    {pos : GridPosition} {mark : Visited} (hm : mark ≠ Visited.Unvisited) :
    countUnvisited (positions.set i (pos, mark)) + 1 = countUnvisited positions := by
  have hpos := countUnvisited_pos hi hu
  rw [List.getD_eq_getElem _ _ hi] at hu
  unfold countUnvisited at *
  rw [List.countP_set _ _ _ _ hi]
  simp [hu, hm]
  omega

theorem nextConnections_length_le (mark : Visited)
    (positions : List (GridPosition × Visited)) (conns : List (Nat × Nat)) (index : Nat) :
    (nextConnections mark positions conns index).length ≤ conns.length := by
  unfold nextConnections
  rw [List.length_map]
  calc (List.filter _ (List.filterMap _ conns)).length
      ≤ (List.filterMap _ conns).length := List.length_filter_le _ _
    _ ≤ conns.length := List.length_filterMap_le _ _

/-! ### The walk cannot run out of fuel when marking Positive or Negative -/

theorem walkWiresAux_ne_outOfFuel {mark : Visited} (hm : mark ≠ Visited.Unvisited)
    (conns : List (Nat × Nat)) :
    ∀ (fuel : Nat) (positions : List (GridPosition × Visited)) (stack : List GridPosition),
      stack.length + countUnvisited positions * conns.length ≤ fuel →
      walkWiresAux mark conns fuel positions stack ≠ WalkResult.outOfFuel := by
  intro fuel
  induction fuel with
  | zero =>
    intro positions stack h
    have : stack = [] := by
      cases stack with
      | nil => rfl
      | cons a t => simp at h
    subst this
    simp [walkWiresAux]
  | succ fuel ih =>
    intro positions stack h
    cases stack with
    | nil => simp [walkWiresAux]
    | cons pos rest =>
      simp only [walkWiresAux]
      cases hidx : posIdx? positions pos with
      | none =>
        apply ih positions rest
        simp at h
        omega
      | some index =>
        simp only []
        split
        · rename_i hu
          apply ih
          have hlen : index < positions.length := posIdx?_lt hidx
          have hu' : (positions.getD index dfltNode).2 = Visited.Unvisited := hu
          have hcount := @countUnvisited_set positions index hlen hu'
            ((positions.getD index dfltNode).1) mark hm
          have hnext := nextConnections_length_le mark
            (positions.set index ((positions.getD index dfltNode).1, mark)) conns index
          have hmul : countUnvisited positions * conns.length =
              countUnvisited (positions.set index ((positions.getD index dfltNode).1, mark)) *
                conns.length + conns.length := by
            rw [← hcount, Nat.succ_mul]
          simp only [List.length_append, List.length_reverse]
          simp at h
          omega
        · split
          · simp
          · apply ih positions rest
            simp at h
            omega

/-! ### The walk cannot report a short circuit when no node carries the
opposite mark -/

theorem walkWiresAux_ne_shortCircuit {mark : Visited} (conns : List (Nat × Nat)) :
    ∀ (fuel : Nat) (positions : List (GridPosition × Visited)) (stack : List GridPosition),
      (∀ p ∈ positions, p.2 = Visited.Unvisited ∨ p.2 = mark) →
      walkWiresAux mark conns fuel positions stack ≠ WalkResult.shortCircuit := by
  intro fuel
  induction fuel with
  | zero =>
    intro positions stack hinv
    cases stack with
    | nil => simp [walkWiresAux]
    | cons a t => simp [walkWiresAux]
  | succ fuel ih =>
    intro positions stack hinv
    cases stack with
    | nil => simp [walkWiresAux]
    | cons pos rest =>
      simp only [walkWiresAux]
      cases hidx : posIdx? positions pos with
      | none => exact ih positions rest hinv
      | some index =>
        simp only []
        split
        · apply ih
          intro p hp
          rcases List.mem_or_eq_of_mem_set hp with hmem | heq
          · exact hinv p hmem
          · right
            rw [heq]
        · rename_i hu
          split
          · rename_i hne
            exfalso
            have hlen : index < positions.length := posIdx?_lt hidx
            have hmem : positions.getD index dfltNode ∈ positions := by
              rw [List.getD_eq_getElem _ _ hlen]
              exact List.getElem_mem _
            rcases hinv _ hmem with hcase | hcase
            · exact hu hcase
            · exact hne hcase
          · exact ih positions rest hinv

/-! ### Once some node carries the walk's mark, an Ok result keeps one -/

theorem walkWiresAux_ok_keeps_mark {mark : Visited} (conns : List (Nat × Nat)) :
    ∀ (fuel : Nat) (positions : List (GridPosition × Visited)) (stack : List GridPosition)
      (ns : List (GridPosition × Visited)),
      walkWiresAux mark conns fuel positions stack = WalkResult.ok ns →
      (∃ p ∈ positions, p.2 = mark) → ∃ p ∈ ns, p.2 = mark := by
  intro fuel
  induction fuel with
  | zero =>
    intro positions stack ns hok hex
    cases stack with
    | nil =>
      simp [walkWiresAux] at hok
      rwa [← hok]
    | cons a t => simp [walkWiresAux] at hok
  | succ fuel ih =>
    intro positions stack ns hok hex
    cases stack with
    | nil =>
      simp [walkWiresAux] at hok
      rwa [← hok]
    | cons pos rest =>
      simp only [walkWiresAux] at hok
      cases hidx : posIdx? positions pos with
      | none =>
        rw [hidx] at hok
        exact ih positions rest ns hok hex
      | some index =>
        rw [hidx] at hok
        simp only [] at hok
        split at hok
        · rename_i hu
          apply ih _ _ _ hok
          have hlen : index < positions.length := posIdx?_lt hidx
          have hlen2 : index <
              (positions.set index ((positions.getD index dfltNode).1, mark)).length := by
            simpa using hlen
          refine ⟨((positions.getD index dfltNode).1, mark), ?_, rfl⟩
          have h2 := List.getElem_set_self (l := positions) (i := index)
            (a := ((positions.getD index dfltNode).1, mark)) hlen2
          nth_rewrite 2 [← h2]
          exact List.getElem_mem _
        · split at hok
          · exact absurd hok (by simp)
          · exact ih positions rest ns hok hex

theorem mem_set_self {positions : List (GridPosition × Visited)} {i : Nat}
    (h : i < positions.length) (x : GridPosition × Visited) : x ∈ positions.set i x := by
  have h2 : i < (positions.set i x).length := by simpa using h
  exact List.mem_iff_getElem.mpr ⟨i, h2, List.getElem_set_self h2⟩

/-- C6: with every node initially Unvisited, the walk from the positive
terminal with the Positive mark always returns Ok - never the short-circuit
error (so the unwrap on its result never panics) - and, when the source
position occurs in the node list, the returned node list carries at least
one Positive mark. -/
theorem positive_walk_always_ok (positions : List (GridPosition × Visited))
    (conns : List (Nat × Nat)) (source : GridPosition)
    (h : ∀ p ∈ positions, p.2 = Visited.Unvisited) :
    ∃ ns, walkWires source Visited.Positive positions conns = WalkResult.ok ns ∧
      (source ∈ positions.map Prod.fst → ∃ p ∈ ns, p.2 = Visited.Positive) := by
  unfold walkWires
  have hfuel := @walkWiresAux_ne_outOfFuel Visited.Positive (by simp) conns
    (countUnvisited positions * conns.length + 1) positions [source]
    (by simp only [List.length_singleton]; omega)
  have hshort := @walkWiresAux_ne_shortCircuit Visited.Positive conns
    (countUnvisited positions * conns.length + 1) positions [source]
    (fun p hp => Or.inl (h p hp))
  cases hr : walkWiresAux Visited.Positive conns
      (countUnvisited positions * conns.length + 1) positions [source] with
  | shortCircuit => exact absurd hr hshort
  | outOfFuel => exact absurd hr hfuel
  | ok ns =>
    refine ⟨ns, rfl, ?_⟩
    intro hs
    obtain ⟨i, hi⟩ := posIdx?_isSome_iff.mpr hs
    have hlen : i < positions.length := posIdx?_lt hi
    have hu : (positions.getD i dfltNode).2 = Visited.Unvisited := by
      rw [List.getD_eq_getElem _ _ hlen]
      exact h _ (List.getElem_mem _)
    simp only [walkWiresAux, hi] at hr
    rw [if_pos hu] at hr
    apply walkWiresAux_ok_keeps_mark conns _ _ _ _ hr
    exact ⟨((positions.getD i dfltNode).1, Visited.Positive),
      mem_set_self hlen _, rfl⟩

theorem positive_walk_always_ok_witness :
    ∃ ns, walkWires ⟨0, 0⟩ Visited.Positive [(⟨0, 0⟩, Visited.Unvisited)] [] =
        WalkResult.ok ns ∧ ∃ p ∈ ns, p.2 = Visited.Positive := by
  obtain ⟨ns, h1, h2⟩ :=
    positive_walk_always_ok [(⟨0, 0⟩, Visited.Unvisited)] [] ⟨0, 0⟩ (by decide)
  exact ⟨ns, h1, h2 (by decide)⟩

/-- C8: when the source position matches no node, the walk is a no-op
success: it returns Ok and leaves every node's mark unchanged. -/
theorem walk_missing_source_is_noop (positions : List (GridPosition × Visited))
    (conns : List (Nat × Nat)) (source : GridPosition) (mark : Visited)
    (h : posIdx? positions source = none) :
    walkWires source mark positions conns = WalkResult.ok positions := by
  unfold walkWires
  simp [walkWiresAux, h]

theorem walk_missing_source_is_noop_witness :
    walkWires ⟨1, 1⟩ Visited.Negative [(⟨2, 2⟩, Visited.Unvisited)] [] =
      WalkResult.ok [(⟨2, 2⟩, Visited.Unvisited)] :=
  walk_missing_source_is_noop [(⟨2, 2⟩, Visited.Unvisited)] [] ⟨1, 1⟩
    Visited.Negative (by decide)

/-- C10: walk_wires terminates on every finite node and edge list when
called with a Positive or Negative mark: the fuelled loop never exhausts
its fuel bound, because each iteration either marks a previously Unvisited
node - which can happen at most countUnvisited times, each pushing at most
one entry per edge - or pops an entry without pushing. -/
theorem walk_wires_terminates (source : GridPosition) (mark : Visited)
    (positions : List (GridPosition × Visited)) (conns : List (Nat × Nat))
    (hm : mark ≠ Visited.Unvisited) :
    walkWires source mark positions conns ≠ WalkResult.outOfFuel := by
  unfold walkWires
  apply walkWiresAux_ne_outOfFuel hm
  simp only [List.length_singleton]
  omega

theorem walk_wires_terminates_witness :
    walkWires ⟨0, 0⟩ Visited.Negative
      [(⟨0, 0⟩, Visited.Unvisited), (⟨0, 1⟩, Visited.Unvisited)] [(0, 1)] ≠
      WalkResult.outOfFuel :=
  walk_wires_terminates ⟨0, 0⟩ Visited.Negative
    [(⟨0, 0⟩, Visited.Unvisited), (⟨0, 1⟩, Visited.Unvisited)] [(0, 1)] (by decide)

/-! ### Topology-builder invariants -/

theorem insertPos_grows (acc : List (GridPosition × Visited)) (pos : GridPosition) :
    ∃ ext, (insertPos acc pos).1 = acc ++ ext := by
  unfold insertPos
  cases h : posIdx? acc pos with
  | some idx => exact ⟨[], (List.append_nil acc).symm⟩
  | none => exact ⟨[(pos, Visited.Unvisited)], rfl⟩

theorem insertPos_idx_lt (acc : List (GridPosition × Visited)) (pos : GridPosition) :
    (insertPos acc pos).2 < (insertPos acc pos).1.length := by
  unfold insertPos
  cases h : posIdx? acc pos with
  | some idx => simpa using posIdx?_lt h
  | none => simp

theorem insertPos_getD (acc : List (GridPosition × Visited)) (pos : GridPosition) :
    ((insertPos acc pos).1.getD (insertPos acc pos).2 dfltNode).1 = pos := by
  unfold insertPos
  cases h : posIdx? acc pos with
  | some idx => simpa using posIdx?_getD h
  | none =>
    simp only []
    rw [List.getD_eq_getElem _ _ (by simp)]
    rw [List.getElem_concat_length _ _ _ rfl]

theorem insertPos_map_fst (acc : List (GridPosition × Visited)) (pos : GridPosition) :
    (insertPos acc pos).1.map Prod.fst =
      if pos ∈ acc.map Prod.fst then acc.map Prod.fst
      else acc.map Prod.fst ++ [pos] := by
  unfold insertPos
  cases h : posIdx? acc pos with
  | some idx =>
    have hmem : pos ∈ acc.map Prod.fst := posIdx?_isSome_iff.mp ⟨idx, h⟩
    simp [hmem]
  | none =>
    have hmem : pos ∉ acc.map Prod.fst := by
      intro hc
      obtain ⟨i, hi⟩ := posIdx?_isSome_iff.mpr hc
      simp [h] at hi
    simp [hmem]

theorem insertPos_unvisited {acc : List (GridPosition × Visited)} {pos : GridPosition}
    (h : ∀ e ∈ acc, e.2 = Visited.Unvisited) :
    ∀ e ∈ (insertPos acc pos).1, e.2 = Visited.Unvisited := by
  unfold insertPos
  cases hh : posIdx? acc pos with
  | some idx => simpa using h
  | none =>
    intro e he
    simp only [List.mem_append, List.mem_singleton] at he
    rcases he with he | he
    · exact h e he
    · rw [he]

theorem buildTopologyAux_fst_indep (ws : List Wire) :
    ∀ (acc : List (GridPosition × Visited)) (conns conns' : List (Nat × Nat)),
      (buildTopologyAux ws acc conns).1 = (buildTopologyAux ws acc conns').1 := by
  induction ws with
  | nil => intro acc conns conns'; rfl
  | cons w rest ih =>
    intro acc conns conns'
    simp only [buildTopologyAux]
    exact ih _ _ _

theorem buildTopologyAux_snd_split (ws : List Wire) :
    ∀ (acc : List (GridPosition × Visited)) (conns : List (Nat × Nat)),
      (buildTopologyAux ws acc conns).2 = conns ++ (buildTopologyAux ws acc []).2 := by
  induction ws with
  | nil => intro acc conns; simp [buildTopologyAux]
  | cons w rest ih =>
    intro acc conns
    simp only [buildTopologyAux, List.nil_append]
    generalize ((insertPos acc w.first).2,
      (insertPos (insertPos acc w.first).1 w.second).2) = e2
    generalize (insertPos (insertPos acc w.first).1 w.second).1 = a2
    rw [ih a2 (conns ++ [e2]), ih a2 [e2], List.append_assoc]

theorem buildTopologyAux_fst_grows (ws : List Wire) :
    ∀ (acc : List (GridPosition × Visited)) (conns : List (Nat × Nat)),
      ∃ ext, (buildTopologyAux ws acc conns).1 = acc ++ ext := by
  induction ws with
  | nil => intro acc conns; exact ⟨[], (List.append_nil acc).symm⟩
  | cons w rest ih =>
    intro acc conns
    simp only [buildTopologyAux]
    obtain ⟨e1, h1⟩ := insertPos_grows acc w.first
    obtain ⟨e2, h2⟩ := insertPos_grows (insertPos acc w.first).1 w.second
    obtain ⟨e3, h3⟩ := ih (insertPos (insertPos acc w.first).1 w.second).1
      (conns ++ [((insertPos acc w.first).2,
        (insertPos (insertPos acc w.first).1 w.second).2)])
    refine ⟨e1 ++ e2 ++ e3, ?_⟩
    rw [h3, h2, h1]
    simp [List.append_assoc]

theorem buildTopologyAux_unvisited (ws : List Wire) :
    ∀ (acc : List (GridPosition × Visited)) (conns : List (Nat × Nat)),
      (∀ e ∈ acc, e.2 = Visited.Unvisited) →
      ∀ e ∈ (buildTopologyAux ws acc conns).1, e.2 = Visited.Unvisited := by
  induction ws with
  | nil => intro acc conns h; exact h
  | cons w rest ih =>
    intro acc conns h
    simp only [buildTopologyAux]
    exact ih _ _ (insertPos_unvisited (insertPos_unvisited h))

theorem buildTopologyAux_map_fst (ws : List Wire) :
    ∀ (acc : List (GridPosition × Visited)) (conns : List (Nat × Nat)),
      (buildTopologyAux ws acc conns).1.map Prod.fst =
        (wireEndpoints ws).foldl
          (fun seen p => if p ∈ seen then seen else seen ++ [p])
          (acc.map Prod.fst) := by
  induction ws with
  | nil => intro acc conns; simp [buildTopologyAux, wireEndpoints]
  | cons w rest ih =>
    intro acc conns
    simp only [buildTopologyAux, wireEndpoints, List.foldl_cons]
    rw [ih, insertPos_map_fst, insertPos_map_fst]

theorem buildTopologyAux_edges_good (ws : List Wire) :
    ∀ acc : List (GridPosition × Visited),
      List.Forall₂ (goodEdge (buildTopologyAux ws acc []).1) ws
        (buildTopologyAux ws acc []).2 := by
  induction ws with
  | nil => intro acc; exact List.Forall₂.nil
  | cons w rest ih =>
    intro acc
    have hstep : buildTopologyAux (w :: rest) acc [] =
        buildTopologyAux rest (insertPos (insertPos acc w.first).1 w.second).1
          [((insertPos acc w.first).2,
            (insertPos (insertPos acc w.first).1 w.second).2)] := by
      simp [buildTopologyAux]
    rw [hstep]
    have hnodes : (buildTopologyAux rest
        (insertPos (insertPos acc w.first).1 w.second).1
        [((insertPos acc w.first).2,
          (insertPos (insertPos acc w.first).1 w.second).2)]).1 =
        (buildTopologyAux rest
          (insertPos (insertPos acc w.first).1 w.second).1 []).1 :=
      buildTopologyAux_fst_indep rest _ _ _
    have hedges : (buildTopologyAux rest
        (insertPos (insertPos acc w.first).1 w.second).1
        [((insertPos acc w.first).2,
          (insertPos (insertPos acc w.first).1 w.second).2)]).2 =
        ((insertPos acc w.first).2,
          (insertPos (insertPos acc w.first).1 w.second).2) ::
          (buildTopologyAux rest
            (insertPos (insertPos acc w.first).1 w.second).1 []).2 := by
      rw [buildTopologyAux_snd_split]
      rfl
    rw [hnodes, hedges]
    rw [List.forall₂_cons]
    constructor
    · obtain ⟨ext, hext⟩ := buildTopologyAux_fst_grows rest
        (insertPos (insertPos acc w.first).1 w.second).1 []
      obtain ⟨e2, he2⟩ := insertPos_grows (insertPos acc w.first).1 w.second
      have hi1acc1 : (insertPos acc w.first).2 < (insertPos acc w.first).1.length :=
        insertPos_idx_lt acc w.first
      have hi1acc2 : (insertPos acc w.first).2 <
          (insertPos (insertPos acc w.first).1 w.second).1.length := by
        rw [he2, List.length_append]
        omega
      have hi2acc2 : (insertPos (insertPos acc w.first).1 w.second).2 <
          (insertPos (insertPos acc w.first).1 w.second).1.length :=
        insertPos_idx_lt (insertPos acc w.first).1 w.second
      refine ⟨?_, ?_, ?_, ?_⟩
      · rw [hext, List.length_append]
        omega
      · rw [hext, List.length_append]
        omega
      · rw [hext, List.getD_append _ _ _ _ hi1acc2, he2,
          List.getD_append _ _ _ _ hi1acc1]
        exact insertPos_getD acc w.first
      · rw [hext, List.getD_append _ _ _ _ hi2acc2]
        exact insertPos_getD (insertPos acc w.first).1 w.second
    · exact ih _

theorem firstSeen_foldl_nodup (ps : List GridPosition) :
    ∀ seen : List GridPosition, seen.Nodup →
      (ps.foldl (fun seen p => if p ∈ seen then seen else seen ++ [p]) seen).Nodup := by
  induction ps with
  | nil => intro seen h; exact h
  | cons p rest ih =>
    intro seen h
    simp only [List.foldl_cons]
    by_cases hp : p ∈ seen
    · rw [if_pos hp]
      exact ih _ h
    · rw [if_neg hp]
      apply ih
      rw [List.nodup_append]
      refine ⟨h, List.nodup_singleton p, ?_⟩
      intro x hx hmem
      simp only [List.mem_singleton] at hmem
      subst hmem
      exact hp hx

/-- C7: the topology builder yields the first-seen deduplicated node list,
every node initially Unvisited and node positions pairwise distinct, and
one edge pair per input element whose indices reference the nodes holding
that element's endpoints (duplicate edges are kept: the edge list pairs
up with the input list element by element). -/
theorem build_topology_spec (ws : List Wire) :
    (buildTopology ws).1.map Prod.fst = firstSeen (wireEndpoints ws) ∧
    ((buildTopology ws).1.map Prod.fst).Nodup ∧
    (∀ e ∈ (buildTopology ws).1, e.2 = Visited.Unvisited) ∧
    (buildTopology ws).2.length = ws.length ∧
    List.Forall₂ (goodEdge (buildTopology ws).1) ws (buildTopology ws).2 := by
  have hmap : (buildTopology ws).1.map Prod.fst = firstSeen (wireEndpoints ws) := by
    unfold buildTopology firstSeen
    rw [buildTopologyAux_map_fst]
    rfl
  have hgood : List.Forall₂ (goodEdge (buildTopology ws).1) ws (buildTopology ws).2 :=
    buildTopologyAux_edges_good ws []
  refine ⟨hmap, ?_, ?_, ?_, hgood⟩
  · rw [hmap]
    exact firstSeen_foldl_nodup (wireEndpoints ws) [] List.nodup_nil
  · exact buildTopologyAux_unvisited ws [] [] (by simp)
  · exact hgood.length_eq.symm

/-! ### Relating simulate to the tick's marked node list -/

theorem simulate_of_marked {s : SimState} {nodes : List (GridPosition × Visited)}
    (h : tickMarkedNodes s = some nodes) :
    simulate s =
      match resolveLights nodes s.lights (resetLights s.ui_lights) with
      | none => none
      | some uls =>
        some { s with ui_buttons := resetButtons s.ui_buttons,
                      ui_lights := uls,
                      relay_coils := resolveCoils nodes (resetCoils s.relay_coils) } := by
  unfold tickMarkedNodes at h
  unfold simulate
  cases hn : negWalkResult s with
  | none => rw [hn] at h; simp at h
  | some r =>
    rw [hn] at h
    cases r with
    | ok ps =>
      simp only [Option.some.injEq] at h
      subst h
      rfl
    | shortCircuit => simp at h
    | outOfFuel => simp at h

theorem simulate_ok_parts {s s' : SimState} {nodes : List (GridPosition × Visited)}
    (hn : tickMarkedNodes s = some nodes) (hs : simulate s = some s') :
    ∃ uls, resolveLights nodes s.lights (resetLights s.ui_lights) = some uls ∧
      s'.ui_lights = uls ∧
      s'.relay_coils = resolveCoils nodes (resetCoils s.relay_coils) ∧
      s'.ui_buttons = resetButtons s.ui_buttons ∧
      s'.lights = s.lights := by
  rw [simulate_of_marked hn] at hs
  cases hr : resolveLights nodes s.lights (resetLights s.ui_lights) with
  | none => rw [hr] at hs; simp at hs
  | some uls =>
    rw [hr] at hs
    simp only [Option.some.injEq] at hs
    subst hs
    exact ⟨uls, rfl, rfl, rfl, rfl, rfl⟩

/-- C1 (amended): on a tick whose negative walk reports the short circuit,
consumer resolution is skipped and every lamp keeps the lit state it had at
the end of the previous tick; relay coils, however, were already reset to
false at latch capture before the walks, so every coil ends a
short-circuited tick with activated = false regardless of its previous
value. -/
theorem short_circuit_freezes_lamps (s : SimState)
    (hsc : negWalkResult s = some WalkResult.shortCircuit) :
    ∃ s', simulate s = some s' ∧ s'.ui_lights = s.ui_lights ∧
      List.Forall₂
        (fun (c c' : RelayCoil) => c'.id = c.id ∧ c'.top = c.top ∧
          c'.bottom = c.bottom ∧ c'.activated = false)
        s.relay_coils s'.relay_coils := by
  have hsim : simulate s =
      some { s with ui_buttons := resetButtons s.ui_buttons, relay_coils := resetCoils s.relay_coils } := by
    unfold simulate
    rw [hsc]
  refine ⟨_, hsim, rfl, ?_⟩
  show List.Forall₂ _ s.relay_coils (resetCoils s.relay_coils)
  unfold resetCoils
  rw [List.forall₂_map_right_iff, List.forall₂_same]
  intro c _
  exact ⟨rfl, rfl, rfl, rfl⟩

/-- C1 counterexample: a short-circuited tick on which a coil that was
activated at the end of the previous tick ends with activated = false -
its flag is not frozen at the prior value, refuting the claim for coils
(the lamp outputs are indeed left unchanged). -/
theorem relay_freeze_counterexample :
    negWalkResult exShort = some WalkResult.shortCircuit ∧
    exShort.relay_coils.map RelayCoil.activated = [true] ∧
    (simulate exShort).map (fun t => t.relay_coils.map RelayCoil.activated) =
      some [false] ∧
    (simulate exShort).map (fun t => t.ui_lights) = some exShort.ui_lights := by
  decide

theorem short_circuit_freezes_lamps_witness :
    ∃ s', simulate exShort = some s' ∧ s'.ui_lights = exShort.ui_lights ∧
      List.Forall₂
        (fun (c c' : RelayCoil) => c'.id = c.id ∧ c'.top = c.top ∧
          c'.bottom = c.bottom ∧ c'.activated = false)
        exShort.relay_coils s'.relay_coils :=
  short_circuit_freezes_lamps exShort (by decide)

theorem litCond_eq_false_of_missing {ps : List (GridPosition × Visited)}
    {top bottom : GridPosition}
    (h : posIdx? ps top = none ∨ posIdx? ps bottom = none) :
    litCond ps top bottom = false := by
  unfold litCond
  cases h1 : posIdx? ps top with
  | none => rfl
  | some ti =>
    cases h2 : posIdx? ps bottom with
    | none => rfl
    | some bi =>
      rcases h with h | h
      · rw [h1] at h; cases h
      · rw [h2] at h; cases h

/-- C3 (amended): on a tick that reaches resolution, a relay coil one of
whose terminal positions has no node in this tick's node list ends the tick
with activated = false - not with its previous value: all coils are
blanket-reset to false during latch capture, so an unreachable coil loses
the value it held at the end of the previous tick. -/
theorem unreachable_coil_resets (s s' : SimState)
    (nodes : List (GridPosition × Visited))
    (hn : tickMarkedNodes s = some nodes) (hs : simulate s = some s') :
    List.Forall₂
      (fun (c c' : RelayCoil) =>
        (posIdx? nodes c.top = none ∨ posIdx? nodes c.bottom = none) →
          c' = { c with activated := false })
      s.relay_coils s'.relay_coils := by
  obtain ⟨uls, _, _, hcoils, _, _⟩ := simulate_ok_parts hn hs
  rw [hcoils]
  unfold resolveCoils resetCoils
  rw [List.map_map, List.forall₂_map_right_iff, List.forall₂_same]
  intro c _ hmiss
  simp only [Function.comp_apply]
  rw [litCond_eq_false_of_missing hmiss]
  simp

/-- C3 counterexample: a successful (non-short-circuited) tick with an
empty node list on which a coil that was activated at the end of the
previous tick, and whose terminals match no node, ends the tick with
activated = false rather than keeping its previous value. -/
theorem unreachable_coil_retention_counterexample :
    tickMarkedNodes exNoWires = some [] ∧
    posIdx? [] (⟨9, 9⟩ : GridPosition) = none ∧
    exNoWires.relay_coils.map RelayCoil.activated = [true] ∧
    (simulate exNoWires).map (fun t => t.relay_coils.map RelayCoil.activated) =
      some [false] := by
  decide

theorem unreachable_coil_resets_witness :
    List.Forall₂
      (fun (c c' : RelayCoil) =>
        (posIdx? [] c.top = none ∨ posIdx? [] c.bottom = none) →
          c' = { c with activated := false })
      exNoWires.relay_coils exNoWiresAfter.relay_coils :=
  unreachable_coil_resets exNoWires exNoWiresAfter [] (by decide) (by decide)

/-! ### Lamp resolution -/

theorem find?_resetLights (uls : List UILight) (i : Nat) :
    List.find? (fun u => u.id == i) (resetLights uls) =
      (List.find? (fun u => u.id == i) uls).map (fun u => ⟨u.id, false⟩) := by
  induction uls with
  | nil => rfl
  | cons u rest ih =>
    unfold resetLights at *
    simp only [List.map_cons, List.find?_cons]
    by_cases hu : u.id = i
    · simp [hu]
    · simp only [show (({ u with is_lit := false } : UILight).id == i) = false by
        simp [hu], show (u.id == i) = false by simp [hu]]
      exact ih

theorem setLitFirst_find_same {uls uls' : List UILight} {i : Nat}
    (h : setLitFirst uls i = some uls') :
    List.find? (fun u => u.id == i) uls' =
      (List.find? (fun u => u.id == i) uls).map (fun u => ⟨u.id, true⟩) := by
  induction uls generalizing uls' with
  | nil => simp [setLitFirst] at h
  | cons u rest ih =>
    unfold setLitFirst at h
    by_cases hu : u.id = i
    · rw [if_pos hu] at h
      simp only [Option.some.injEq] at h
      subst h
      simp [List.find?_cons, hu]
    · rw [if_neg hu] at h
      simp only [Option.map_eq_some'] at h
      obtain ⟨rest', hrest, rfl⟩ := h
      simp only [List.find?_cons, show (u.id == i) = false by simp [hu]]
      exact ih hrest

theorem setLitFirst_find_other {uls uls' : List UILight} {i j : Nat}
    (h : setLitFirst uls i = some uls') (hij : j ≠ i) :
    List.find? (fun u => u.id == j) uls' = List.find? (fun u => u.id == j) uls := by
  induction uls generalizing uls' with
  | nil => simp [setLitFirst] at h
  | cons u rest ih =>
    unfold setLitFirst at h
    by_cases hu : u.id = i
    · rw [if_pos hu] at h
      simp only [Option.some.injEq] at h
      subst h
      have hj : (u.id == j) = false := by
        simp [hu]
        exact fun hc => hij hc.symm
      simp [List.find?_cons, hj]
    · rw [if_neg hu] at h
      simp only [Option.map_eq_some'] at h
      obtain ⟨rest', hrest, rfl⟩ := h
      by_cases hj : u.id = j
      · simp [List.find?_cons, hj]
      · simp only [List.find?_cons, show (u.id == j) = false by simp [hj]]
        exact ih hrest

theorem resolveLights_find_notMem {nodes : List (GridPosition × Visited)}
    {lights : List Light} {uls uls' : List UILight} {i : Nat}
    (h : resolveLights nodes lights uls = some uls')
    (hnot : ∀ l ∈ lights, l.id ≠ i) :
    List.find? (fun u => u.id == i) uls' = List.find? (fun u => u.id == i) uls := by
  induction lights generalizing uls with
  | nil =>
    simp only [resolveLights, Option.some.injEq] at h
    rw [h]
  | cons l rest ih =>
    unfold resolveLights at h
    by_cases hc : litCond nodes l.top l.bottom
    · rw [if_pos hc] at h
      cases hset : setLitFirst uls l.id with
      | none => rw [hset] at h; simp at h
      | some uls1 =>
        rw [hset] at h
        have hstep := setLitFirst_find_other hset
          (fun he => hnot l (List.mem_cons_self l rest) he.symm)
        rw [ih h (fun l' hl' => hnot l' (List.mem_cons_of_mem l hl')), hstep]
    · rw [if_neg hc] at h
      exact ih h (fun l' hl' => hnot l' (List.mem_cons_of_mem l hl'))

theorem resolveLights_find_mem {nodes : List (GridPosition × Visited)}
    {lights : List Light} {uls uls' : List UILight} {l : Light}
    (h : resolveLights nodes lights uls = some uls')
    (hnd : (lights.map Light.id).Nodup) (hl : l ∈ lights) :
    List.find? (fun u => u.id == l.id) uls' =
      (List.find? (fun u => u.id == l.id) uls).map
        (fun u => ⟨u.id, u.is_lit || litCond nodes l.top l.bottom⟩) := by
  induction lights generalizing uls with
  | nil => cases hl
  | cons l0 rest ih =>
    simp only [List.map_cons, List.nodup_cons] at hnd
    obtain ⟨hid0, hndrest⟩ := hnd
    rcases List.mem_cons.mp hl with rfl | hlrest
    · unfold resolveLights at h
      have hnotin : ∀ l' ∈ rest, l'.id ≠ l.id := by
        intro l' hl' he
        exact hid0 (List.mem_map.mpr ⟨l', hl', he⟩)
      by_cases hc : litCond nodes l.top l.bottom
      · rw [if_pos hc] at h
        cases hset : setLitFirst uls l.id with
        | none => rw [hset] at h; simp at h
        | some uls1 =>
          rw [hset] at h
          rw [resolveLights_find_notMem h hnotin, setLitFirst_find_same hset, hc]
          simp [Bool.or_true]
      · rw [if_neg hc] at h
        rw [resolveLights_find_notMem h hnotin]
        rw [show litCond nodes l.top l.bottom = false by
          cases hcc : litCond nodes l.top l.bottom
          · rfl
          · exact absurd hcc hc]
        cases hfind : List.find? (fun u => u.id == l.id) uls with
        | none => rfl
        | some u =>
          simp only [Option.map_some', Option.some.injEq, Bool.or_false]
    · have hne : l0.id ≠ l.id := by
        intro he
        exact hid0 (List.mem_map.mpr ⟨l, hlrest, he.symm⟩)
      unfold resolveLights at h
      by_cases hc : litCond nodes l0.top l0.bottom
      · rw [if_pos hc] at h
        cases hset : setLitFirst uls l0.id with
        | none => rw [hset] at h; simp at h
        | some uls1 =>
          rw [hset] at h
          rw [ih h hndrest hlrest, setLitFirst_find_other hset (fun he => hne he.symm)]
      · rw [if_neg hc] at h
        exact ih h hndrest hlrest

/-- C2: on a tick whose negative walk succeeds, lamps are first all reset
to unlit and then the lamp of each light (found by id among the ui lights)
ends the tick lit exactly when litCond holds, i.e. exactly when both
terminal positions occur in the node list and the two nodes carry opposite
marks; a light with a missing terminal node, same-polarity terminals or an
Unvisited terminal ends the tick unlit. Light ids are assumed pairwise
distinct so that each light owns its ui light. -/
theorem lamp_resolution (s s' : SimState) (nodes : List (GridPosition × Visited))
    (hn : tickMarkedNodes s = some nodes) (hs : simulate s = some s')
    (hnd : (s.lights.map Light.id).Nodup) (l : Light) (hl : l ∈ s.lights) :
    List.find? (fun u => u.id == l.id) s'.ui_lights =
      (List.find? (fun u => u.id == l.id) s.ui_lights).map
        (fun u => ⟨u.id, litCond nodes l.top l.bottom⟩) ∧
    (litCond nodes l.top l.bottom = true ↔
      ∃ ti bi, posIdx? nodes l.top = some ti ∧ posIdx? nodes l.bottom = some bi ∧
        (((nodes.getD ti dfltNode).2 = Visited.Positive ∧
            (nodes.getD bi dfltNode).2 = Visited.Negative) ∨
          ((nodes.getD ti dfltNode).2 = Visited.Negative ∧
            (nodes.getD bi dfltNode).2 = Visited.Positive))) := by
  constructor
  · obtain ⟨uls, hres, hlights, _, _, _⟩ := simulate_ok_parts hn hs
    rw [hlights]
    rw [resolveLights_find_mem hres hnd hl, find?_resetLights, Option.map_map]
    cases hfind : List.find? (fun u => u.id == l.id) s.ui_lights with
    | none => rfl
    | some u => simp
  · unfold litCond
    cases h1 : posIdx? nodes l.top with
    | none => simp
    | some ti =>
      cases h2 : posIdx? nodes l.bottom with
      | none => simp
      | some bi => simp

theorem lamp_resolution_witness :
    List.find? (fun u => u.id == (7 : Nat)) exBasicAfter.ui_lights =
      (List.find? (fun u => u.id == (7 : Nat)) exBasic.ui_lights).map
        (fun u => ⟨u.id, litCond exBasicNodes ⟨0, 1⟩ ⟨0, 2⟩⟩) :=
  (lamp_resolution exBasic exBasicAfter exBasicNodes (by decide) (by decide)
    (by decide) ⟨7, ⟨0, 1⟩, ⟨0, 2⟩⟩ (by decide)).1

/-! ### Switch conduction and the relay latch -/

theorem activeRelayIds_foldl (coils : List RelayCoil) :
    ∀ init : List Nat,
      coils.foldl (fun acc c => if c.activated then acc ++ [c.id] else acc) init =
        init ++ (coils.filter (fun c => c.activated)).map RelayCoil.id := by
  induction coils with
  | nil => intro init; simp
  | cons c rest ih =>
    intro init
    simp only [List.foldl_cons]
    by_cases hc : c.activated
    · rw [if_pos hc, ih, List.filter_cons_of_pos hc]
      simp
    · rw [if_neg hc, ih, List.filter_cons_of_neg hc]

theorem mem_activeRelayIds {coils : List RelayCoil} {i : Nat} :
    i ∈ activeRelayIds coils ↔ ∃ c ∈ coils, c.activated = true ∧ c.id = i := by
  unfold activeRelayIds
  rw [activeRelayIds_foldl]
  simp [List.mem_filter]
  constructor
  · rintro ⟨c, ⟨hc, hact⟩, hid⟩
    exact ⟨c, hc, hact, hid⟩
  · rintro ⟨c, hc, hact, hid⟩
    exact ⟨c, ⟨hc, hact⟩, hid⟩

/-- C4: a button or relay switch conducts (contributes an effective wire to
the tick's conductive-element list) exactly when its kind is NormallyOpen
and its id is in the latched active-id set, or its kind is NormallyClosed
and its id is not; two devices sharing id and kind conduct together. -/
theorem switch_conduction (active : List Nat) (b1 b2 : ButtonSwitch)
    (r1 r2 : RelaySwitch) (s : SimState) :
    (buttonConducts active b1 = true ↔
      (b1.typ = SwitchType.NormallyOpen ∧ b1.id ∈ active) ∨
      (b1.typ = SwitchType.NormallyClosed ∧ b1.id ∉ active)) ∧
    (relayConducts active r1 = true ↔
      (r1.typ = SwitchType.NormallyOpen ∧ r1.id ∈ active) ∨
      (r1.typ = SwitchType.NormallyClosed ∧ r1.id ∉ active)) ∧
    (b1.id = b2.id → b1.typ = b2.typ →
      buttonConducts active b1 = buttonConducts active b2) ∧
    (r1.id = r2.id → r1.typ = r2.typ →
      relayConducts active r1 = relayConducts active r2) ∧
    (b1 ∈ s.button_switches → buttonConducts (activeButtonIds s.ui_buttons) b1 = true →
      Wire.mk b1.top b1.bottom ∈ effectiveWires s) ∧
    (r1 ∈ s.relay_switches → relayConducts (activeRelayIds s.relay_coils) r1 = true →
      Wire.mk r1.top r1.bottom ∈ effectiveWires s) := by
  refine ⟨?_, ?_, ?_, ?_, ?_, ?_⟩
  · cases hb : b1.typ <;> simp [buttonConducts, hb]
  · cases hr : r1.typ <;> simp [relayConducts, hr]
  · intro hid htyp
    simp only [buttonConducts, hid, htyp]
  · intro hid htyp
    simp only [relayConducts, hid, htyp]
  · intro hmem hcond
    unfold effectiveWires
    refine List.mem_append_left _ (List.mem_append_right _ ?_)
    unfold buttonWires
    exact List.mem_map.mpr ⟨b1, List.mem_filter.mpr ⟨hmem, hcond⟩, rfl⟩
  · intro hmem hcond
    unfold effectiveWires
    refine List.mem_append_right _ ?_
    unfold relayWires
    exact List.mem_map.mpr ⟨r1, List.mem_filter.mpr ⟨hmem, hcond⟩, rfl⟩

theorem switch_conduction_witness :
    buttonConducts [1] ⟨1, SwitchType.NormallyOpen, ⟨2, 2⟩, ⟨2, 3⟩⟩ = true ∧
    Wire.mk ⟨2, 2⟩ ⟨2, 3⟩ ∈ effectiveWires exButton := by
  have h := switch_conduction [1] ⟨1, SwitchType.NormallyOpen, ⟨2, 2⟩, ⟨2, 3⟩⟩
    ⟨1, SwitchType.NormallyOpen, ⟨2, 2⟩, ⟨2, 3⟩⟩
    ⟨0, SwitchType.NormallyOpen, ⟨3, 3⟩, ⟨3, 4⟩⟩
    ⟨0, SwitchType.NormallyOpen, ⟨3, 3⟩, ⟨3, 4⟩⟩ exButton
  exact ⟨h.1.mpr (Or.inl ⟨rfl, by decide⟩), h.2.2.2.2.1 (by decide) (by decide)⟩

/-- C5: the active-relay-id set a tick conducts with is latched from the
coil state left by the previous tick. If no coil with id i is activated in
state s and some coil with id i is activated in the tick's result s', then
a Normally-Open relay switch with id i does not conduct during the tick
computed from s but does conduct during the tick computed from s' - one
tick later. -/
theorem relay_feedback_lag (s s' : SimState) (i : Nat) (r : RelaySwitch)
    (_hsim : simulate s = some s')
    (hbefore : ∀ c ∈ s.relay_coils, c.id = i → c.activated = false)
    (hafter : ∃ c ∈ s'.relay_coils, c.id = i ∧ c.activated = true)
    (htyp : r.typ = SwitchType.NormallyOpen) (hid : r.id = i) :
    relayConducts (activeRelayIds s.relay_coils) r = false ∧
    relayConducts (activeRelayIds s'.relay_coils) r = true ∧
    r ∉ s.relay_switches.filter (relayConducts (activeRelayIds s.relay_coils)) ∧
    (r ∈ s'.relay_switches → Wire.mk r.top r.bottom ∈ effectiveWires s') := by
  have hnotin : i ∉ activeRelayIds s.relay_coils := by
    rw [mem_activeRelayIds]
    rintro ⟨c, hc, hact, hcid⟩
    rw [hbefore c hc hcid] at hact
    cases hact
  have hin : i ∈ activeRelayIds s'.relay_coils := by
    rw [mem_activeRelayIds]
    obtain ⟨c, hc, hcid, hact⟩ := hafter
    exact ⟨c, hc, hact, hcid⟩
  have h1 : relayConducts (activeRelayIds s.relay_coils) r = false := by
    simp [relayConducts, htyp, hid, hnotin]
  have h2 : relayConducts (activeRelayIds s'.relay_coils) r = true := by
    simp [relayConducts, htyp, hid, hin]
  refine ⟨h1, h2, ?_, ?_⟩
  · intro hmem
    rw [List.mem_filter, h1] at hmem
    cases hmem.2
  · intro hmem
    unfold effectiveWires
    refine List.mem_append_right _ ?_
    unfold relayWires
    exact List.mem_map.mpr ⟨r, List.mem_filter.mpr ⟨hmem, h2⟩, rfl⟩

theorem relay_feedback_lag_witness :
    relayConducts (activeRelayIds exRelay.relay_coils)
      ⟨0, SwitchType.NormallyOpen, ⟨3, 3⟩, ⟨3, 4⟩⟩ = false ∧
    relayConducts (activeRelayIds exRelayAfter.relay_coils)
      ⟨0, SwitchType.NormallyOpen, ⟨3, 3⟩, ⟨3, 4⟩⟩ = true ∧
    Wire.mk ⟨3, 3⟩ ⟨3, 4⟩ ∈ effectiveWires exRelayAfter := by
  have h := relay_feedback_lag exRelay exRelayAfter 0
    ⟨0, SwitchType.NormallyOpen, ⟨3, 3⟩, ⟨3, 4⟩⟩
    (by decide) (by decide) (by decide) rfl rfl
  exact ⟨h.1, h.2.1, h.2.2.2 (by decide)⟩

/-- C9: simulate indexes the first two power sources unconditionally - with
fewer than two sources the tick panics (none) instead of returning a
configuration error - and never validates the second source's polarity:
when the first source is not Positive the second is used as the positive
terminal unchecked, so two Negative sources are silently mis-assigned. -/
theorem power_source_indexing :
    (∀ s : SimState, s.power_sources.length < 2 → simulate s = none) ∧
    (∀ srcs : List (GridPosition × Power), 2 ≤ srcs.length →
      ∃ t, selectTerminals srcs = some t) ∧
    (∀ (p1 p2 : GridPosition) (rest : List (GridPosition × Power)),
      selectTerminals ((p1, PowerType.Negative) :: (p2, PowerType.Negative) :: rest) =
        some (p2, p1)) := by
  refine ⟨?_, ?_, ?_⟩
  · intro s h
    have hsel : selectTerminals s.power_sources = none := by
      cases hps : s.power_sources with
      | nil => rfl
      | cons a t =>
        cases t with
        | nil => rfl
        | cons b t2 =>
          exfalso
          rw [hps] at h
          simp only [List.length_cons] at h
          omega
    unfold simulate negWalkResult
    rw [hsel]
  · intro srcs h
    cases srcs with
    | nil => simp at h
    | cons a t =>
      cases t with
      | nil => simp at h
      | cons b t2 => exact ⟨_, rfl⟩
  · intro p1 p2 rest
    rfl

theorem power_source_indexing_witness :
    simulate exOneSource = none ∧
    selectTerminals [(⟨1, 1⟩, PowerType.Negative), (⟨2, 2⟩, PowerType.Negative)] =
      some (⟨2, 2⟩, ⟨1, 1⟩) :=
  ⟨power_source_indexing.1 exOneSource (by decide),
    power_source_indexing.2.2 ⟨1, 1⟩ ⟨2, 2⟩ []⟩
